import Mathlib

/-!
Verification of the spacetime-warp visualizer against its design spec.

The definitions below are a shallow embedding of the repository's code:

* `src/components/SpacetimeVisualizer.tsx` — object type registry, camera
  orbit controller, curvature field solver, field animator, placement
  raycaster, mass-edit debounce;
* `src/convex/objects.ts` — persistence mutations (create / updateMass /
  updatePosition / delete / clearAll).

JavaScript numbers are modelled as `ℚ` where the code uses only field
operations, and as `ℝ` where it uses `Math.hypot` / trigonometry.
-/

set_option maxHeartbeats 1000000

namespace SpacetimeWarp

/-! ### Object Type Registry (`OBJECT_TYPES` in SpacetimeVisualizer.tsx) -/

inductive ObjectType where
  | spaceship
  | planet
  | star
  | neutronstar
  | blackhole
deriving DecidableEq, Repr

structure TypeDescriptor where
  mass : ℚ
  color : Nat
  size : ℚ
deriving DecidableEq, Repr

def OBJECT_TYPES : ObjectType → TypeDescriptor
  | .spaceship => { mass := 0.000001, color := 0x00ff88, size := 0.1 }
  | .planet => { mass := 1, color := 0x4488ff, size := 0.3 }
  | .star => { mass := 100, color := 0xffaa00, size := 0.5 }
  | .neutronstar => { mass := 1000, color := 0xff4444, size := 0.2 }
  | .blackhole => { mass := 10000, color := 0x000000, size := 0.4 }

def typeName : ObjectType → String
  | .spaceship => "spaceship"
  | .planet => "planet"
  | .star => "star"
  | .neutronstar => "neutronstar"
  | .blackhole => "blackhole"

/-! ### Placement Raycaster (`handleCanvasClick` in SpacetimeVisualizer.tsx)

The ray is taken as given (origin, direction); the embedding starts at
`raycaster.ray.intersectPlane(plane, intersectPoint)` with the plane
`y = 0` (normal `(0,1,0)`, constant `0`). -/

structure V3Q where
  x : ℚ
  y : ℚ
  z : ℚ
deriving DecidableEq, Repr

/-- Embedding of three.js `Ray.distanceToPlane` specialised to the plane
`y = 0`: the denominator is `normal ⬝ direction = dir.y`, the plane's
signed distance to the origin point is `origin.y`, and a negative ray
parameter means no intersection. -/
def distanceToPlaneY0 (origin dir : V3Q) : Option ℚ :=
  let denominator := dir.y
  if denominator = 0 then
    if origin.y = 0 then some 0 else none
  else
    let t := -origin.y / denominator
    if 0 ≤ t then some t else none

def rayAt (origin dir : V3Q) (t : ℚ) : V3Q :=
  ⟨origin.x + t * dir.x, origin.y + t * dir.y, origin.z + t * dir.z⟩

/-- Embedding of three.js `Ray.intersectPlane` for the plane `y = 0`:
`none` when the ray misses the plane, otherwise the intersection point. -/
def intersectPlaneY0 (origin dir : V3Q) : Option V3Q :=
  (distanceToPlaneY0 origin dir).map (rayAt origin dir)

structure CreateCommand where
  type : ObjectType
  mass : ℚ
  x : ℚ
  y : ℚ
  z : ℚ
  name : String
deriving DecidableEq, Repr

/-- Embedding of `handleCanvasClick`.  The source initialises
`const intersectPoint = new THREE.Vector3()` (that is `(0,0,0)`), lets
`intersectPlane` write into it on a hit, and then tests
`if (intersectPoint)`.  In JavaScript an object reference is always
truthy, so that branch runs whether or not the ray hit the plane; on a
miss the point is still `(0,0,0)`.  The embedding reproduces exactly
that behaviour. -/
def handleCanvasClick (origin dir : V3Q) (selectedObjectType : ObjectType)
    (objectsLength : Nat) : Option CreateCommand :=
  let intersectPoint : V3Q := (intersectPlaneY0 origin dir).getD ⟨0, 0, 0⟩
  some { type := selectedObjectType,
         mass := (OBJECT_TYPES selectedObjectType).mass,
         x := intersectPoint.x, y := 0, z := intersectPoint.z,
         name := typeName selectedObjectType ++ " " ++ toString (objectsLength + 1) }

/-! ### Object Store (`src/convex/objects.ts`)

Users and document ids are modelled as naturals; `Option Nat` is the
result of `getCurrentUser` (`none` = unauthenticated).  The validators
`v.string()` and `v.number()` accept arbitrary strings and numbers, so
the argument types below are exactly `String` and `ℚ`. -/

structure Position where
  x : ℚ
  y : ℚ
  z : ℚ
deriving DecidableEq, Repr

structure SpaceObject where
  userId : Nat
  type : String
  mass : ℚ
  position : Position
  name : Option String
deriving DecidableEq, Repr

structure DB where
  nextId : Nat
  objects : List (Nat × SpaceObject)
deriving DecidableEq, Repr

/-- Embedding of `ctx.db.get`. -/
def DB.get (db : DB) (objectId : Nat) : Option SpaceObject :=
  (db.objects.find? (fun p => p.1 = objectId)).map (fun p => p.2)

/-- Embedding of the `createObject` mutation: only authentication is
checked; `type`, `mass`, `position` and `name` are inserted verbatim. -/
def createObject (user : Option Nat) (db : DB) (type : String) (mass : ℚ)
    (position : Position) (name : Option String) : Except String (DB × Nat) :=
  match user with
  | none => .error "Must be authenticated to create objects"
  | some u =>
      let obj : SpaceObject :=
        { userId := u, type := type, mass := mass, position := position, name := name }
      Except.ok ({ nextId := db.nextId + 1, objects := db.objects ++ [(db.nextId, obj)] },
        db.nextId)

/-- Embedding of `ctx.db.patch` restricted to the `mass` field. -/
def DB.patchMass (db : DB) (objectId : Nat) (mass : ℚ) : DB :=
  { db with objects := db.objects.map fun p =>
      if p.1 = objectId then (p.1, { p.2 with mass := mass }) else p }

/-- Embedding of the `updateObjectMass` mutation. -/
def updateObjectMass (user : Option Nat) (db : DB) (objectId : Nat)
    (mass : ℚ) : Except String DB :=
  match user with
  | none => .error "Must be authenticated"
  | some u =>
      match db.get objectId with
      | none => .error "Object not found or unauthorized"
      | some obj =>
          if obj.userId = u then .ok (db.patchMass objectId mass)
          else .error "Object not found or unauthorized"

/-- Embedding of `ctx.db.delete`. -/
def DB.deleteId (db : DB) (objectId : Nat) : DB :=
  { db with objects := db.objects.filter (fun p => ¬ p.1 = objectId) }

/-- Embedding of the `deleteObject` mutation: a missing document returns
success without touching the store; a present document owned by another
user raises `Unauthorized`. -/
def deleteObject (user : Option Nat) (db : DB) (objectId : Nat) :
    Except String DB :=
  match user with
  | none => .error "Must be authenticated"
  | some u =>
      match db.get objectId with
      | none => .ok db
      | some obj =>
          if obj.userId = u then .ok (db.deleteId objectId)
          else .error "Unauthorized"

/-- Data-model invariant claimed by the spec for a persisted Body:
type drawn from the five-member enum and strictly positive mass. -/
def BodyValid (o : SpaceObject) : Prop :=
  o.type ∈ ["spaceship", "planet", "star", "neutronstar", "blackhole"] ∧
  0 < o.mass

instance (o : SpaceObject) : Decidable (BodyValid o) := by
  unfold BodyValid; infer_instance

/-- Store-wide version of `BodyValid`. -/
def DBValid (db : DB) : Prop :=
  ∀ p ∈ db.objects, BodyValid p.2

instance (db : DB) : Decidable (DBValid db) := by
  unfold DBValid; infer_instance

/-! ### Mass-edit handler (`handleMassInputChange` in SpacetimeVisualizer.tsx)

`parseFloat` of the raw input is modelled as `Option ℚ` (`none` for a
`NaN` result, on which the handler returns without any state change). -/

/-- Embedding of the clamp line
`nextVal = Math.min(50000, Math.max(0.1, nextVal))`. -/
def clampMass (v : ℚ) : ℚ := min 50000 (max 0.1 v)

/-- The three places the handler applies `nextVal`: the optimistic local
selection state, the immediate curvature recomputation, and the value
captured by the debounced `updateObjectMass` call. -/
structure MassEditResult where
  localMass : ℚ
  solverMass : ℚ
  scheduledMass : ℚ
deriving DecidableEq, Repr

/-- Embedding of `handleMassInputChange` for a single input event:
a non-numeric entry is dropped; a numeric one is clamped and the same
clamped value feeds local state, the solver and the scheduled mutation. -/
def handleMassInputChange (raw : Option ℚ) : Option MassEditResult :=
  match raw with
  | none => none
  | some v =>
      let nextVal := clampMass v
      some { localMass := nextVal, solverMass := nextVal, scheduledMass := nextVal }

/-- Debounce semantics of `setTimeout`/`clearTimeout` in the single-threaded
event loop: an edit at time `t` schedules a mutation at `t + delay`; the
timer fires unless a later edit arrives strictly before `t + delay`, in
which case it is cleared and replaced.  Input: edits as `(time, value)`
pairs in event order; output: the mutations that actually fire, as
`(fire time, value)` pairs. -/
def debounceEmits (delay : Nat) : List (Nat × ℚ) → List (Nat × ℚ)
  | [] => []
  | (t, v) :: rest =>
      match rest with
      | [] => [(t + delay, v)]
      | (t2, _) :: _ =>
          (if t + delay ≤ t2 then [(t + delay, v)] else []) ++ debounceEmits delay rest

/-- Mutations issued by a sequence of mass-edit input events: each event's
value is clamped by the handler, and the outbound `updateObjectMass`
calls are debounced with the fixed 120 ms delay. -/
def massEditMutations (edits : List (Nat × ℚ)) : List (Nat × ℚ) :=
  debounceEmits 120 (edits.map fun e => (e.1, clampMass e.2))

/-! ### Field Animator (the `animate` loop in SpacetimeVisualizer.tsx) -/

/-- Fixed per-frame interpolation factor (`const alpha = 0.12`). -/
def alpha : ℚ := 0.12

/-- One lerp step `current + (target - current) * alpha`, as applied to a
sample's Y position and to each colour channel. -/
def lerpStep (current target : ℚ) : ℚ :=
  current + (target - current) * alpha

/-- Embedding of the per-frame Y update: when target heights exist and
`pos.count === targetY.length`, every sample's Y moves one `lerpStep`
toward its target; otherwise the positions are left untouched. -/
def animateStepY (current : List ℚ) (targetY : Option (List ℚ)) : List ℚ :=
  match targetY with
  | none => current
  | some t =>
      if current.length = t.length then
        (current.zip t).map fun p => lerpStep p.1 p.2
      else current

/-- Embedding of the per-frame colour update: current colours are RGB
triples, targets a flat channel array; when
`colorsAttr.count * 3 === targetColors.length`, each channel moves one
`lerpStep` toward `targetColors[i*3+k]`. -/
def animateStepColors (current : List (ℚ × ℚ × ℚ)) (targetColors : Option (List ℚ)) :
    List (ℚ × ℚ × ℚ) :=
  match targetColors with
  | none => current
  | some tc =>
      if current.length * 3 = tc.length then
        (List.range current.length).map fun i =>
          let c := current.getD i (0, 0, 0)
          (lerpStep c.1 (tc.getD (i * 3) 0),
           lerpStep c.2.1 (tc.getD (i * 3 + 1) 0),
           lerpStep c.2.2 (tc.getD (i * 3 + 2) 0))
      else current

/-! ### Curvature Field Solver (`updateGridCurvature` in SpacetimeVisualizer.tsx)

Only the fields the solver reads are modelled: a body's planar position
and mass, and a sample's base position (`x`, `baseY`, `z` from the cached
`basePositionsRef`; for the rotated plane geometry every `baseY` is 0,
but the code reads it from the buffer, so it stays a field). -/

structure SolverBody where
  x : ℝ
  z : ℝ
  mass : ℝ

structure Sample where
  x : ℝ
  baseY : ℝ
  z : ℝ

noncomputable section

/-- Curvature visualization scale (`const K = 0.4`). -/
def K : ℝ := 0.4

/-- Visual "Schwarzschild radius" scale (`const k_rs = 0.05`). -/
def k_rs : ℝ := 0.05

/-- Floor radius `r_s = k_rs * mass` with `mass = Math.max(0.000001, obj.mass)`. -/
def r_s (m : ℝ) : ℝ := k_rs * max 0.000001 m

/-- `effectiveR = Math.max(r, r_s)`. -/
def effectiveR (r m : ℝ) : ℝ := max r (r_s m)

/-- One body's contribution to a sample's displacement:
`mass * (1 / effectiveR)` with `r = Math.hypot(x - obj.position.x, z - obj.position.z)`. -/
def bodyDisp (x z : ℝ) (b : SolverBody) : ℝ :=
  let r := Real.sqrt ((x - b.x) ^ 2 + (z - b.z) ^ 2)
  max 0.000001 b.mass * (1 / effectiveR r b.mass)

/-- Displacement accumulated over all bodies (`disp += ...` loop). -/
def disp (bodies : List SolverBody) (x z : ℝ) : ℝ :=
  (bodies.map (bodyDisp x z)).sum

/-- Running sum `sumDisp` over all sample points. -/
def sumDisp (bodies : List SolverBody) (samples : List Sample) : ℝ :=
  (samples.map fun s => disp bodies s.x s.z).sum

/-- `const meanDisp = sumDisp / Math.max(1, positions.count)`. -/
def meanDisp (bodies : List SolverBody) (samples : List Sample) : ℝ :=
  sumDisp bodies samples / max 1 (samples.length : ℝ)

/-- `const centered = disps[i] - meanDisp`. -/
def centered (bodies : List SolverBody) (samples : List Sample) (s : Sample) : ℝ :=
  disp bodies s.x s.z - meanDisp bodies samples

/-- `const newY = baseY - K * centered`, the solver's target height. -/
def targetY (bodies : List SolverBody) (samples : List Sample) (s : Sample) : ℝ :=
  s.baseY - K * centered bodies samples s

/-- Modelled from the spec's words (section 4.1), for comparison with the
code-derived `disp`: sum over all bodies of
`max(b.mass, ε) * (1 / max(hypot(x - b.x, z - b.z), k_rs * max(b.mass, ε)))`
with `ε = 1e-6` and `k_rs = 0.05`. -/
def specDisp (bodies : List SolverBody) (x z : ℝ) : ℝ :=
  (bodies.map fun b =>
    max b.mass 0.000001 *
      (1 / max (Real.sqrt ((x - b.x) ^ 2 + (z - b.z) ^ 2))
               (0.05 * max b.mass 0.000001))).sum

/-- Modelled from the spec's words: `meanDisp` as the arithmetic mean of
`disp` over all samples. -/
def specMeanDisp (bodies : List SolverBody) (samples : List Sample) : ℝ :=
  (samples.map fun s => specDisp bodies s.x s.z).sum / (samples.length : ℝ)

/-- Modelled from the spec's words: `targetY = baseY - K * centered`
with `K = 0.4` and `centered = disp - meanDisp`. -/
def specTargetY (bodies : List SolverBody) (samples : List Sample) (s : Sample) : ℝ :=
  s.baseY - 0.4 * (specDisp bodies s.x s.z - specMeanDisp bodies samples)

end

/-! ### Camera Orbit Controller (mouse/wheel handlers in SpacetimeVisualizer.tsx)

The three.js pieces the handlers rely on (`Vector3` arithmetic,
`Vector3.setFromSpherical`, `Spherical.setFromVector3`, `MathUtils.clamp`)
are embedded below over `ℝ`. -/

structure V3R where
  x : ℝ
  y : ℝ
  z : ℝ

namespace V3R

noncomputable section

def add (a b : V3R) : V3R := ⟨a.x + b.x, a.y + b.y, a.z + b.z⟩

def sub (a b : V3R) : V3R := ⟨a.x - b.x, a.y - b.y, a.z - b.z⟩

def scale (c : ℝ) (a : V3R) : V3R := ⟨c * a.x, c * a.y, c * a.z⟩

def cross (a b : V3R) : V3R :=
  ⟨a.y * b.z - a.z * b.y, a.z * b.x - a.x * b.z, a.x * b.y - a.y * b.x⟩

def length (a : V3R) : ℝ := Real.sqrt (a.x ^ 2 + a.y ^ 2 + a.z ^ 2)

/-- Embedding of three.js `Vector3.normalize`, which divides by
`this.length() || 1`. -/
def normalize (a : V3R) : V3R :=
  scale (1 / (if a.length = 0 then 1 else a.length)) a

end

end V3R

structure Spherical where
  radius : ℝ
  phi : ℝ
  theta : ℝ

noncomputable section

/-- Embedding of three.js `Vector3.setFromSpherical`:
`x = sin(phi)*radius*sin(theta)`, `y = cos(phi)*radius`,
`z = sin(phi)*radius*cos(theta)`. -/
def setFromSpherical (s : Spherical) : V3R :=
  let sinPhiRadius := Real.sin s.phi * s.radius
  ⟨sinPhiRadius * Real.sin s.theta, Real.cos s.phi * s.radius,
   sinPhiRadius * Real.cos s.theta⟩

/-- Embedding of `Math.atan2` by quadrant case analysis over `Real.arctan`. -/
def atan2 (y x : ℝ) : ℝ :=
  if 0 < x then Real.arctan (y / x)
  else if x < 0 then
    (if 0 ≤ y then Real.arctan (y / x) + Real.pi else Real.arctan (y / x) - Real.pi)
  else if 0 < y then Real.pi / 2
  else if y < 0 then -(Real.pi / 2)
  else 0

/-- Embedding of three.js `MathUtils.clamp(value, lo, hi) = max(lo, min(hi, value))`. -/
def clampR (value lo hi : ℝ) : ℝ := max lo (min hi value)

/-- Embedding of three.js `Spherical.setFromVector3`: `radius = |v|`; a zero
vector yields `phi = theta = 0`, otherwise `theta = atan2(x, z)` and
`phi = acos(clamp(y / radius, -1, 1))`. -/
def Spherical.setFromVector3 (v : V3R) : Spherical :=
  let radius := v.length
  if radius = 0 then ⟨0, 0, 0⟩
  else ⟨radius, Real.arccos (clampR (v.y / radius) (-1) 1), atan2 v.x v.z⟩

/-- The per-session camera rig: the spherical state `sphericalRef`, the
orbit target `targetRef`, and the rendered camera position. -/
structure CameraState where
  spherical : Spherical
  target : V3R
  camPos : V3R

/-- Embedding of `updateCameraFromSpherical`: clamp `phi` into
`[0.05, π - 0.05]` in place, then set the camera position to
`target + setFromSpherical(spherical)`. -/
def updateCameraFromSpherical (s : CameraState) : CameraState :=
  let phi := min (max s.spherical.phi 0.05) (Real.pi - 0.05)
  let sph : Spherical := { s.spherical with phi := phi }
  { spherical := sph, target := s.target,
    camPos := V3R.add s.target (setFromSpherical sph) }

/-- Embedding of `handleMouseDown`'s re-derivation of the spherical state
from the current camera-target offset. -/
def handleMouseDownCam (s : CameraState) : CameraState :=
  { s with spherical := Spherical.setFromVector3 (V3R.sub s.camPos s.target) }

/-- Embedding of the orbit branch of `handleMouseMove`:
`theta -= dx * 0.005; phi -= dy * 0.005`, then `updateCameraFromSpherical`. -/
def orbitMove (dx dy : ℝ) (s : CameraState) : CameraState :=
  updateCameraFromSpherical
    { s with spherical :=
        { s.spherical with
            theta := s.spherical.theta - dx * 0.005,
            phi := s.spherical.phi - dy * 0.005 } }

/-- Embedding of the pan branch of `handleMouseMove` (shift-drag): build the
camera-forward / right / true-up frame, displace both target and camera by
the pan vector (scaled by `0.002 * radius`), then re-derive the spherical
state from the new camera-target offset. -/
def panMove (dx dy : ℝ) (s : CameraState) : CameraState :=
  let panSpeed := 0.002 * s.spherical.radius
  let dir := (V3R.sub s.target s.camPos).normalize
  let up : V3R := ⟨0, 1, 0⟩
  let right := (V3R.cross dir up).normalize
  let actualUp := (V3R.cross right dir).normalize
  let pan := V3R.add (V3R.scale (-dx * panSpeed) right)
                     (V3R.scale (dy * panSpeed) actualUp)
  let target := V3R.add s.target pan
  let camPos := V3R.add s.camPos pan
  { spherical := Spherical.setFromVector3 (V3R.sub camPos target),
    target := target, camPos := camPos }

/-- Embedding of `Math.sign`. -/
def signR (x : ℝ) : ℝ := if 0 < x then 1 else if x < 0 then -1 else 0

/-- Embedding of `handleWheel`: `zoomFactor = 1 + sign(deltaY) * 0.1`;
`radius = min(max(radius * zoomFactor, 2), 80)`; then reposition. -/
def handleWheelCam (deltaY : ℝ) (s : CameraState) : CameraState :=
  let zoomFactor := 1 + signR deltaY * 0.1
  let radius := min (max (s.spherical.radius * zoomFactor) 2) 80
  updateCameraFromSpherical { s with spherical := { s.spherical with radius := radius } }

end

/-- Camera-rig invariant from the spec's data model — `radius ∈ [2, 80]`,
`phi ∈ [0.05, π - 0.05]` — together with the consistency fact that the
rendered camera sits at `target + setFromSpherical(spherical)`,
which every handler re-establishes. -/
def CamInv (s : CameraState) : Prop :=
  2 ≤ s.spherical.radius ∧ s.spherical.radius ≤ 80 ∧
  0.05 ≤ s.spherical.phi ∧ s.spherical.phi ≤ Real.pi - 0.05 ∧
  s.camPos = V3R.add s.target (setFromSpherical s.spherical)

/-! ## Theorems -/

/-- C1: the spec claims that a placement ray that misses the plane `y = 0`
issues no create command.  Evaluating the embedded click handler on a ray
parallel to the plane (origin `(0,5,0)`, direction `(1,0,0)`) shows that
`intersectPlaneY0` indeed finds no intersection, yet a create command is
still emitted — at `(0, 0, 0)`, the never-written initial value of
`intersectPoint` — because the guard `if (intersectPoint)` tests the
always-truthy `Vector3` object instead of `intersectPlane`'s return value. -/
theorem placement_miss_still_creates :
    intersectPlaneY0 ⟨0, 5, 0⟩ ⟨1, 0, 0⟩ = none ∧
    handleCanvasClick ⟨0, 5, 0⟩ ⟨1, 0, 0⟩ ObjectType.planet 0 =
      some { type := ObjectType.planet, mass := 1, x := 0, y := 0, z := 0,
             name := "planet 1" } := by
  exact ⟨rfl, rfl⟩

/-- C7: for an authenticated caller, deleting an absent body succeeds with
the store unchanged, and deleting a body owned by someone else fails with
`Unauthorized` (the returned error carries no store change). -/
theorem deleteObject_idempotent_and_owner_guard (u : Nat) (db : DB) (objectId : Nat) :
    (db.get objectId = none → deleteObject (some u) db objectId = Except.ok db) ∧
    (∀ o, db.get objectId = some o → o.userId ≠ u →
      deleteObject (some u) db objectId = Except.error "Unauthorized") := by
  constructor
  · intro h
    simp [deleteObject, h]
  · intro o h hne
    simp [deleteObject, h, hne]

/-- Witness for C7 at a concrete store: user 3 deleting absent id 5
succeeds silently; user 3 deleting id 0 owned by user 7 errors. -/
theorem deleteObject_idempotent_and_owner_guard_witness :
    deleteObject (some 3) ⟨1, [(0, ⟨7, "planet", 1, ⟨0, 0, 0⟩, none⟩)]⟩ 5 =
      Except.ok ⟨1, [(0, ⟨7, "planet", 1, ⟨0, 0, 0⟩, none⟩)]⟩ ∧
    deleteObject (some 3) ⟨1, [(0, ⟨7, "planet", 1, ⟨0, 0, 0⟩, none⟩)]⟩ 0 =
      Except.error "Unauthorized" := by
  refine ⟨(deleteObject_idempotent_and_owner_guard 3 _ 5).1 (by decide),
    (deleteObject_idempotent_and_owner_guard 3 _ 0).2 ⟨7, "planet", 1, ⟨0, 0, 0⟩, none⟩
      (by decide) (by decide)⟩

/-- C4 counterexample: an authenticated `createObject` call with type
"asteroid" (not in the enum) and mass −1 (not positive) succeeds and
stores both values verbatim, so create does not preserve the claimed
data-model invariant for arbitrary accepted inputs. -/
theorem createObject_accepts_invalid_body :
    createObject (some 0) ⟨0, []⟩ "asteroid" (-1) ⟨0, 0, 0⟩ none =
      Except.ok (⟨1, [(0, ⟨0, "asteroid", -1, ⟨0, 0, 0⟩, none⟩)]⟩, 0) ∧
    ¬ DBValid ⟨1, [(0, ⟨0, "asteroid", -1, ⟨0, 0, 0⟩, none⟩)]⟩ := by
  exact ⟨rfl, by decide⟩

/-- C4 amended: `createObject` and `updateObjectMass` validate nothing and
store their arguments verbatim; the data-model invariant is preserved
exactly when the inputs themselves satisfy it — a valid store stays valid
under a create whose type is in the enum with positive mass, and under a
mass update with positive mass. -/
theorem create_update_preserve_valid_inputs (u : Nat) (db : DB) (ty : String)
    (m : ℚ) (pos : Position) (name : Option String) (objectId : Nat)
    (hdb : DBValid db)
    (hty : ty ∈ ["spaceship", "planet", "star", "neutronstar", "blackhole"])
    (hm : 0 < m) :
    (∀ db2 newId, createObject (some u) db ty m pos name = Except.ok (db2, newId) →
      DBValid db2) ∧
    (∀ db2, updateObjectMass (some u) db objectId m = Except.ok db2 → DBValid db2) := by
  constructor
  · intro db2 newId h
    simp [createObject] at h
    obtain ⟨rfl, -⟩ := h
    intro p hp
    simp only [List.mem_append, List.mem_singleton] at hp
    rcases hp with hp | rfl
    · exact hdb p hp
    · exact ⟨hty, hm⟩
  · intro db2 h
    simp [updateObjectMass] at h
    rcases hdbget : db.get objectId with - | obj
    · rw [hdbget] at h
      simp at h
    · rw [hdbget] at h
      rcases howner : decide (obj.userId = u) with - | -
      · simp [of_decide_eq_false howner] at h
      · have howner' := of_decide_eq_true howner
        simp [howner'] at h
        subst h
        intro p hp
        simp only [DB.patchMass, List.mem_map] at hp
        obtain ⟨q, hq, rfl⟩ := hp
        by_cases hid : q.1 = objectId
        · simp only [hid, if_pos rfl]
          exact ⟨(hdb q hq).1, hm⟩
        · simp only [if_neg hid]
          exact hdb q hq

/-- Witness for C4's amended theorem: a valid one-object store stays valid
after an authenticated create of a planet with mass 2 and after an
authenticated mass update to 5. -/
theorem create_update_preserve_valid_inputs_witness :
    DBValid ⟨2, [(0, ⟨3, "star", 100, ⟨1, 0, 1⟩, none⟩)]⟩ ∧
    DBValid ⟨3, [(0, ⟨3, "star", 100, ⟨1, 0, 1⟩, none⟩),
                 (2, ⟨3, "planet", 2, ⟨0, 0, 0⟩, none⟩)]⟩ := by
  refine ⟨by decide, ?_⟩
  exact (create_update_preserve_valid_inputs 3 ⟨2, [(0, ⟨3, "star", 100, ⟨1, 0, 1⟩, none⟩)]⟩
      "planet" 2 ⟨0, 0, 0⟩ none 0 (by decide) (by decide) (by decide)).1
    _ 2 rfl

/-- C10: every numeric entered mass is clamped into `[0.1, 50000]` and the
clamped value is what reaches the local state, the solver and the
scheduled mutation; values below 0.1 become 0.1, values above 50000
become 50000, in-range values pass through; non-numeric input is dropped. -/
theorem mass_input_clamped (v : ℚ) :
    handleMassInputChange (some v) =
      some { localMass := clampMass v, solverMass := clampMass v,
             scheduledMass := clampMass v } ∧
    handleMassInputChange none = none ∧
    (v < 0.1 → clampMass v = 0.1) ∧
    (50000 < v → clampMass v = 50000) ∧
    (0.1 ≤ v → v ≤ 50000 → clampMass v = v) := by
  refine ⟨rfl, rfl, ?_, ?_, ?_⟩
  · intro h
    rw [clampMass, max_eq_left h.le, min_eq_right (by norm_num)]
  · intro h
    rw [clampMass, max_eq_right (by linarith), min_eq_left h.le]
  · intro h1 h2
    rw [clampMass, max_eq_right h1, min_eq_right h2]

/-- Witness for C10: 0.05 clamps up to 0.1, 60000 clamps down to 50000,
and 7 passes through. -/
theorem mass_input_clamped_witness :
    clampMass 0.05 = 0.1 ∧ clampMass 60000 = 50000 ∧ clampMass 7 = 7 := by
  exact ⟨(mass_input_clamped 0.05).2.2.1 (by norm_num),
    (mass_input_clamped 60000).2.2.2.1 (by norm_num),
    (mass_input_clamped 7).2.2.2.2 (by norm_num) (by norm_num)⟩

theorem debounceEmits_burst (delay : Nat) (l : List (Nat × ℚ)) (t : Nat) (v : ℚ)
    (hlast : l.getLast? = some (t, v))
    (h : List.Chain' (fun a b => b.1 < a.1 + delay) l) :
    debounceEmits delay l = [(t + delay, v)] := by
  induction l with
  | nil => simp at hlast
  | cons e rest ih =>
      obtain ⟨t1, v1⟩ := e
      cases rest with
      | nil =>
          simp only [List.getLast?_singleton, Option.some.injEq, Prod.mk.injEq] at hlast
          obtain ⟨rfl, rfl⟩ := hlast
          simp [debounceEmits]
      | cons e2 rest2 =>
          have h2 := List.chain'_cons.mp h
          have hlast2 : (e2 :: rest2).getLast? = some (t, v) := by
            rwa [List.getLast?_cons_cons] at hlast
          simp only [debounceEmits, if_neg (not_le.mpr h2.1), List.nil_append]
          exact ih hlast2 h2.2

/-- C5: during a burst of mass edits in which every edit arrives strictly
less than 120 ms after the previous one, each new edit clears and replaces
the pending timer, and exactly one `updateObjectMass` mutation fires —
120 ms after the last edit, carrying the last edit's applied value
(its clamp; the entered value itself whenever it lies in `[0.1, 50000]`). -/
theorem mass_edit_burst_single_mutation (edits : List (Nat × ℚ)) (t : Nat) (v : ℚ)
    (hlast : edits.getLast? = some (t, v))
    (hburst : List.Chain' (fun a b => b.1 < a.1 + 120) edits) :
    massEditMutations edits = [(t + 120, clampMass v)] ∧
    (0.1 ≤ v → v ≤ 50000 → massEditMutations edits = [(t + 120, v)]) := by
  have hmap : (edits.map fun e => (e.1, clampMass e.2)).getLast? =
      some (t, clampMass v) := by
    rw [List.getLast?_map, hlast]
    rfl
  have hchain : List.Chain' (fun a b => b.1 < a.1 + 120)
      (edits.map fun e => (e.1, clampMass e.2)) := by
    rw [List.chain'_map]
    exact hburst
  have hone : massEditMutations edits = [(t + 120, clampMass v)] :=
    debounceEmits_burst 120 _ t (clampMass v) hmap hchain
  refine ⟨hone, fun h1 h2 => ?_⟩
  rw [hone, clampMass, max_eq_right h1, min_eq_right h2]

/-- Witness for C5: two edits 50 ms apart (1 then 50000) produce exactly one
mutation, at time 170, with the last value 50000. -/
theorem mass_edit_burst_single_mutation_witness :
    massEditMutations [(0, 1), (50, 50000)] = [(170, 50000)] := by
  exact (mass_edit_burst_single_mutation [(0, 1), (50, 50000)] 50 50000 rfl
    (by simp [List.chain'_cons])).2 (by norm_num) (by norm_num)

theorem animateStepY_getD (current t : List ℚ) (i : Nat)
    (hl : current.length = t.length) (hi : i < current.length) :
    (animateStepY current (some t)).getD i 0 = lerpStep (current.getD i 0) (t.getD i 0) := by
  have hiz : i < ((current.zip t).map fun p => lerpStep p.1 p.2).length := by
    simp [List.length_zip, hl.symm ▸ hi, hi, ← hl]
  have hit : i < t.length := hl ▸ hi
  rw [animateStepY, if_pos hl]
  rw [List.getD_eq_getElem _ _ hiz, List.getD_eq_getElem _ _ hi,
    List.getD_eq_getElem _ _ hit]
  simp [List.getElem_zip]

/-- C8: the per-frame animator step moves every sample height and every
colour channel by `current += (target - current) * alpha` with the fixed
`alpha = 0.12`; a value not yet at its target never snaps onto the target
in one step.  The step is a pure function of the current and target
buffers — it consults no change flag, so it acts the same way whether or
not targets changed since the previous frame. -/
theorem animator_frame_lerp (current targets : List ℚ)
    (colors : List (ℚ × ℚ × ℚ)) (targetColors : List ℚ) (i : Nat) :
    (current.length = targets.length → i < current.length →
      (animateStepY current (some targets)).getD i 0 =
        current.getD i 0 + (targets.getD i 0 - current.getD i 0) * alpha) ∧
    (current.length = targets.length → i < current.length →
      current.getD i 0 ≠ targets.getD i 0 →
      (animateStepY current (some targets)).getD i 0 ≠ targets.getD i 0) ∧
    (colors.length * 3 = targetColors.length → i < colors.length →
      (animateStepColors colors (some targetColors)).getD i (0, 0, 0) =
        (lerpStep (colors.getD i (0, 0, 0)).1 (targetColors.getD (i * 3) 0),
         lerpStep (colors.getD i (0, 0, 0)).2.1 (targetColors.getD (i * 3 + 1) 0),
         lerpStep (colors.getD i (0, 0, 0)).2.2 (targetColors.getD (i * 3 + 2) 0))) := by
  refine ⟨fun hl hi => ?_, fun hl hi hne => ?_, fun hc hi => ?_⟩
  · rw [animateStepY_getD current targets i hl hi, lerpStep]
  · rw [animateStepY_getD current targets i hl hi, lerpStep, alpha]
    intro heq
    apply hne
    linarith
  · have hir : i < (List.range colors.length).length := by simpa using hi
    rw [animateStepColors, if_pos hc]
    rw [List.getD_eq_getElem _ _ (by simpa using hi)]
    simp [List.getElem_range]

/-- Witness for C8 on concrete buffers: heights `[0, 2]` toward `[1, 2]`
move to `[0.12, 2]`; the first height does not snap to its target; one
colour triple lerps channelwise. -/
theorem animator_frame_lerp_witness :
    (animateStepY [0, 2] (some [1, 2])).getD 0 0 = 0 + (1 - 0) * alpha ∧
    (animateStepY [0, 2] (some [1, 2])).getD 0 0 ≠ (1 : ℚ) ∧
    (animateStepColors [(0, 0, 0)] (some [1, 2, 3])).getD 0 (0, 0, 0) =
      (lerpStep 0 1, lerpStep 0 2, lerpStep 0 3) := by
  refine ⟨?_, ?_, ?_⟩
  · exact (animator_frame_lerp [0, 2] [1, 2] [] [] 0).1 rfl (by norm_num)
  · exact fun h =>
      (animator_frame_lerp [0, 2] [1, 2] [] [] 0).2.1 rfl (by norm_num) (by norm_num)
        (by simpa using h)
  · exact (animator_frame_lerp [] [] [(0, 0, 0)] [1, 2, 3] 0).2.2 rfl (by norm_num)

theorem disp_eq_specDisp (bodies : List SolverBody) (x z : ℝ) :
    disp bodies x z = specDisp bodies x z := by
  unfold disp specDisp
  congr 1
  refine List.map_congr_left fun b _ => ?_
  simp only [bodyDisp, effectiveR, r_s, k_rs]
  rw [max_comm (0.000001 : ℝ) b.mass]

theorem sumDisp_eq_spec (bodies : List SolverBody) (samples : List Sample) :
    sumDisp bodies samples = (samples.map fun s => specDisp bodies s.x s.z).sum := by
  unfold sumDisp
  congr 1
  exact List.map_congr_left fun s _ => disp_eq_specDisp bodies s.x s.z

theorem max_one_length (samples : List Sample) (h : 0 < samples.length) :
    max (1 : ℝ) (samples.length : ℝ) = (samples.length : ℝ) :=
  max_eq_right (by exact_mod_cast h)

/-- C2: for every body set and every sample point of a non-empty sample
grid, the solver's target height equals the spec formula
`baseY - K * centered` with `K = 0.4`, `centered = disp - meanDisp`,
`meanDisp` the arithmetic mean of `disp` over the samples, and `disp` the
inverse-effective-distance sum with `ε = 1e-6`, `k_rs = 0.05`.  (The fixed
101×101 grid instantiates `samples`; its length is positive.) -/
theorem solver_targetY_matches_spec (bodies : List SolverBody)
    (samples : List Sample) (h : 0 < samples.length) :
    ∀ s ∈ samples, targetY bodies samples s = specTargetY bodies samples s := by
  intro s _
  unfold targetY specTargetY centered meanDisp specMeanDisp K
  rw [disp_eq_specDisp, sumDisp_eq_spec, max_one_length samples h]

/-- Witness for C2 at a one-sample grid and a single unit-mass body. -/
theorem solver_targetY_matches_spec_witness :
    targetY [⟨0, 0, 1⟩] [⟨2, 0, 0⟩] ⟨2, 0, 0⟩ =
      specTargetY [⟨0, 0, 1⟩] [⟨2, 0, 0⟩] ⟨2, 0, 0⟩ := by
  exact solver_targetY_matches_spec [⟨0, 0, 1⟩] [⟨2, 0, 0⟩] (by simp)
    ⟨2, 0, 0⟩ (by simp)

theorem sum_map_disp_sub (bodies : List SolverBody) (l : List Sample) (c : ℝ) :
    (l.map fun s => disp bodies s.x s.z - c).sum
      = (l.map fun s => disp bodies s.x s.z).sum - l.length * c := by
  induction l with
  | nil => simp
  | cons a l ih =>
      simp only [List.map_cons, List.sum_cons, ih, List.length_cons]
      push_cast
      ring

/-- C3: for a non-empty body set (and the non-empty sample grid), the
arithmetic mean of the recentered values `centered = disp - meanDisp`
over all sample points is exactly 0. -/
theorem solver_centered_zero_mean (bodies : List SolverBody)
    (samples : List Sample) (hb : bodies ≠ []) (h : 0 < samples.length) :
    (samples.map fun s => centered bodies samples s).sum / (samples.length : ℝ) = 0 := by
  have hn : (samples.length : ℝ) ≠ 0 := by
    exact_mod_cast Nat.pos_iff_ne_zero.mp h
  unfold centered
  rw [sum_map_disp_sub bodies samples (meanDisp bodies samples)]
  unfold meanDisp
  rw [max_one_length samples h, sumDisp]
  rw [mul_div_cancel₀ _ hn]
  simp

/-- Witness for C3 at a one-body set and a two-sample grid. -/
theorem solver_centered_zero_mean_witness :
    (([⟨0, 0, 0⟩, ⟨3, 0, 4⟩] : List Sample).map
        fun s => centered [⟨0, 0, 1⟩] [⟨0, 0, 0⟩, ⟨3, 0, 4⟩] s).sum
      / (([⟨0, 0, 0⟩, ⟨3, 0, 4⟩] : List Sample).length : ℝ) = 0 := by
  exact solver_centered_zero_mean [⟨0, 0, 1⟩] [⟨0, 0, 0⟩, ⟨3, 0, 4⟩]
    (by simp) (by simp)

/-- C9: for any stored mass and any planar distance `r ≥ 0`,
`effectiveR = max(r, r_s)` with `r_s = k_rs * max(mass, ε)` satisfies
`effectiveR ≥ r_s > 0`, so `1 / effectiveR` never divides by zero. -/
theorem solver_floor_safety (m r : ℝ) (hr : 0 ≤ r) :
    r_s m ≤ effectiveR r m ∧ 0 < r_s m ∧ effectiveR r m ≠ 0 := by
  have hpos : 0 < r_s m := by
    rw [r_s, k_rs]
    have h1 : (0 : ℝ) < 0.000001 := by norm_num
    exact mul_pos (by norm_num) (lt_of_lt_of_le h1 (le_max_left _ _))
  refine ⟨le_max_right _ _, hpos, ?_⟩
  exact ne_of_gt (lt_of_lt_of_le hpos (le_max_right _ _))

/-- Witness for C9 at mass 0 (below the ε floor) and distance 1. -/
theorem solver_floor_safety_witness :
    r_s 0 ≤ effectiveR 1 0 ∧ 0 < r_s 0 ∧ effectiveR 1 0 ≠ 0 :=
  solver_floor_safety 0 1 zero_le_one

theorem V3R.sub_add_right (a b p : V3R) :
    V3R.sub (V3R.add a p) (V3R.add b p) = V3R.sub a b := by
  simp only [V3R.add, V3R.sub]
  congr 1 <;> ring

theorem V3R.sub_add_self (t v : V3R) : V3R.sub (V3R.add t v) t = v := by
  cases v
  simp only [V3R.add, V3R.sub, V3R.mk.injEq]
  refine ⟨by ring, by ring, by ring⟩

theorem V3R.add_sub_self (t c : V3R) : V3R.add t (V3R.sub c t) = c := by
  cases c
  simp only [V3R.add, V3R.sub, V3R.mk.injEq]
  refine ⟨by ring, by ring, by ring⟩

theorem V3R.add_right_comm (a b c : V3R) :
    V3R.add (V3R.add a b) c = V3R.add (V3R.add a c) b := by
  simp only [V3R.add]
  congr 1 <;> ring

theorem sqrt_mul_cos_atan2 (y x : ℝ) :
    Real.sqrt (x ^ 2 + y ^ 2) * Real.cos (atan2 y x) = x := by
  rcases lt_trichotomy 0 x with hx | hx | hx
  · have hx0 : x ≠ 0 := ne_of_gt hx
    rw [atan2, if_pos hx, Real.cos_arctan]
    rw [show 1 + (y / x) ^ 2 = (x ^ 2 + y ^ 2) / x ^ 2 by field_simp]
    rw [Real.sqrt_div (by positivity) (x ^ 2), Real.sqrt_sq hx.le]
    have hS : Real.sqrt (x ^ 2 + y ^ 2) ≠ 0 :=
      ne_of_gt (Real.sqrt_pos.mpr (by positivity))
    field_simp
  · subst hx
    rw [atan2, if_neg (lt_irrefl 0), if_neg (lt_irrefl 0)]
    rcases lt_trichotomy 0 y with hy | hy | hy
    · rw [if_pos hy, Real.cos_pi_div_two, mul_zero]
    · subst hy
      simp [Real.sqrt_eq_zero']
    · rw [if_neg (by linarith), if_pos hy, Real.cos_neg, Real.cos_pi_div_two, mul_zero]
  · rw [atan2, if_neg (by linarith), if_pos hx]
    have hx0 : x ≠ 0 := ne_of_lt hx
    have h2 : Real.sqrt (1 + (y / x) ^ 2) = Real.sqrt (x ^ 2 + y ^ 2) / (-x) := by
      rw [show 1 + (y / x) ^ 2 = (x ^ 2 + y ^ 2) / x ^ 2 by field_simp]
      rw [Real.sqrt_div (by positivity) (x ^ 2), Real.sqrt_sq_eq_abs, abs_of_neg hx]
    have hS : Real.sqrt (x ^ 2 + y ^ 2) ≠ 0 :=
      ne_of_gt (Real.sqrt_pos.mpr (by positivity))
    by_cases hy : 0 ≤ y
    · rw [if_pos hy]
      simp only [Real.cos_add, Real.cos_pi, Real.sin_pi, mul_zero, mul_neg_one, sub_zero]
      rw [Real.cos_arctan, h2]
      field_simp
    · rw [if_neg hy]
      simp only [Real.cos_sub, Real.cos_pi, Real.sin_pi, mul_zero, mul_neg_one, add_zero]
      rw [Real.cos_arctan, h2]
      field_simp

theorem sqrt_mul_sin_atan2 (y x : ℝ) :
    Real.sqrt (x ^ 2 + y ^ 2) * Real.sin (atan2 y x) = y := by
  rcases lt_trichotomy 0 x with hx | hx | hx
  · have hx0 : x ≠ 0 := ne_of_gt hx
    rw [atan2, if_pos hx, Real.sin_arctan]
    rw [show 1 + (y / x) ^ 2 = (x ^ 2 + y ^ 2) / x ^ 2 by field_simp]
    rw [Real.sqrt_div (by positivity) (x ^ 2), Real.sqrt_sq hx.le]
    have hS : Real.sqrt (x ^ 2 + y ^ 2) ≠ 0 :=
      ne_of_gt (Real.sqrt_pos.mpr (by positivity))
    field_simp
  · subst hx
    rw [atan2, if_neg (lt_irrefl 0), if_neg (lt_irrefl 0)]
    rcases lt_trichotomy 0 y with hy | hy | hy
    · rw [if_pos hy, Real.sin_pi_div_two, mul_one]
      rw [show (0 : ℝ) ^ 2 + y ^ 2 = y ^ 2 by ring]
      rw [Real.sqrt_sq_eq_abs, abs_of_pos hy]
    · subst hy
      simp [Real.sqrt_eq_zero']
    · rw [if_neg (by linarith), if_pos hy, Real.sin_neg, Real.sin_pi_div_two]
      rw [show (0 : ℝ) ^ 2 + y ^ 2 = y ^ 2 by ring]
      rw [Real.sqrt_sq_eq_abs, abs_of_neg hy]
      ring
  · rw [atan2, if_neg (by linarith), if_pos hx]
    have hx0 : x ≠ 0 := ne_of_lt hx
    have h2 : Real.sqrt (1 + (y / x) ^ 2) = Real.sqrt (x ^ 2 + y ^ 2) / (-x) := by
      rw [show 1 + (y / x) ^ 2 = (x ^ 2 + y ^ 2) / x ^ 2 by field_simp]
      rw [Real.sqrt_div (by positivity) (x ^ 2), Real.sqrt_sq_eq_abs, abs_of_neg hx]
    have hS : Real.sqrt (x ^ 2 + y ^ 2) ≠ 0 :=
      ne_of_gt (Real.sqrt_pos.mpr (by positivity))
    by_cases hy : 0 ≤ y
    · rw [if_pos hy]
      simp only [Real.sin_add, Real.cos_pi, Real.sin_pi, mul_zero, mul_neg_one, zero_add]
      rw [Real.sin_arctan, h2]
      field_simp
      ring
    · rw [if_neg hy]
      simp only [Real.sin_sub, Real.cos_pi, Real.sin_pi, mul_zero, mul_neg_one, sub_zero]
      rw [Real.sin_arctan, h2]
      field_simp
      ring

theorem setFromSpherical_setFromVector3 (v : V3R) :
    setFromSpherical (Spherical.setFromVector3 v) = v := by
  obtain ⟨x, y, z⟩ := v
  by_cases h0 : V3R.length ⟨x, y, z⟩ = 0
  · have hs := Real.sqrt_eq_zero'.mp h0
    have hx : x = 0 ∧ y = 0 ∧ z = 0 := by
      refine ⟨?_, ?_, ?_⟩ <;> nlinarith [sq_nonneg x, sq_nonneg y, sq_nonneg z]
    obtain ⟨rfl, rfl, rfl⟩ := hx
    rw [Spherical.setFromVector3, if_pos h0]
    simp [setFromSpherical]
  · rw [Spherical.setFromVector3, if_neg h0]
    have hrpos : 0 < V3R.length ⟨x, y, z⟩ :=
      lt_of_le_of_ne (Real.sqrt_nonneg _) (Ne.symm h0)
    set r := V3R.length ⟨x, y, z⟩ with hrdef
    have hr2 : r ^ 2 = x ^ 2 + y ^ 2 + z ^ 2 := by
      rw [hrdef, V3R.length]
      exact Real.sq_sqrt (by positivity)
    have habs : |y| ≤ r := by
      have h1 : Real.sqrt (y ^ 2) ≤ Real.sqrt (r ^ 2) :=
        Real.sqrt_le_sqrt (by nlinarith [sq_nonneg x, sq_nonneg z])
      rwa [Real.sqrt_sq_eq_abs, Real.sqrt_sq hrpos.le] at h1
    have hyr : -1 ≤ y / r ∧ y / r ≤ 1 := by
      rw [← abs_le, abs_div, abs_of_pos hrpos]
      exact (div_le_one hrpos).mpr habs
    have hclamp : clampR (y / r) (-1) 1 = y / r := by
      rw [clampR, min_eq_right hyr.2, max_eq_right hyr.1]
    have hcos : Real.cos (Real.arccos (y / r)) = y / r := Real.cos_arccos hyr.1 hyr.2
    have hsr : Real.sin (Real.arccos (y / r)) * r = Real.sqrt (z ^ 2 + x ^ 2) := by
      rw [Real.sin_arccos]
      rw [show 1 - (y / r) ^ 2 = (z ^ 2 + x ^ 2) / r ^ 2 by
        field_simp
        linear_combination hr2]
      rw [Real.sqrt_div (by positivity) (r ^ 2), Real.sqrt_sq hrpos.le]
      exact div_mul_cancel₀ _ (ne_of_gt hrpos)
    rw [setFromSpherical]
    simp only [hclamp]
    congr 1
    · rw [hsr]
      exact sqrt_mul_sin_atan2 x z
    · rw [hcos]
      exact div_mul_cancel₀ _ (ne_of_gt hrpos)
    · rw [hsr]
      exact sqrt_mul_cos_atan2 x z

theorem setFromVector3_radius_phi (r φ θ : ℝ) (hr : 0 < r) (h0 : 0 ≤ φ)
    (hπ : φ ≤ Real.pi) :
    (Spherical.setFromVector3 (setFromSpherical ⟨r, φ, θ⟩)).radius = r ∧
    (Spherical.setFromVector3 (setFromSpherical ⟨r, φ, θ⟩)).phi = φ := by
  have hlen : V3R.length (setFromSpherical ⟨r, φ, θ⟩) = r := by
    rw [setFromSpherical, V3R.length]
    simp only
    rw [show (Real.sin φ * r * Real.sin θ) ^ 2 + (Real.cos φ * r) ^ 2 +
        (Real.sin φ * r * Real.cos θ) ^ 2 = r ^ 2 by
      have h1 := Real.sin_sq_add_cos_sq θ
      have h2 := Real.sin_sq_add_cos_sq φ
      linear_combination (r ^ 2 * Real.sin φ ^ 2) * h1 + r ^ 2 * h2]
    exact Real.sqrt_sq hr.le
  rw [Spherical.setFromVector3]
  rw [if_neg (by rw [hlen]; exact ne_of_gt hr)]
  refine ⟨hlen, ?_⟩
  show Real.arccos (clampR ((setFromSpherical ⟨r, φ, θ⟩).y /
      V3R.length (setFromSpherical ⟨r, φ, θ⟩)) (-1) 1) = φ
  rw [hlen]
  have hy : (setFromSpherical ⟨r, φ, θ⟩).y = Real.cos φ * r := rfl
  rw [hy, mul_div_cancel_right₀ _ (ne_of_gt hr), clampR,
    min_eq_right (Real.cos_le_one φ), max_eq_right (Real.neg_one_le_cos φ),
    Real.arccos_cos h0 hπ]

theorem phi_clamp_bounds (p : ℝ) :
    0.05 ≤ min (max p 0.05) (Real.pi - 0.05) ∧
    min (max p 0.05) (Real.pi - 0.05) ≤ Real.pi - 0.05 := by
  have h3 := Real.pi_gt_three
  exact ⟨le_min (le_max_right _ _) (by linarith), min_le_right _ _⟩

/-- C6: the camera-rig invariant `radius ∈ [2, 80]`, `phi ∈ [0.05, π - 0.05]`
(together with the camera sitting at `target + setFromSpherical(spherical)`)
is preserved by orbit drags, shift-drag pans, wheel zooms and the
pointer-down re-derivation of the spherical state; moreover a drag that
decreases `phi` from the lower bound leaves it pinned at 0.05, and a
wheel-out event at radius 80 leaves the radius saturated at 80. -/
theorem camera_rig_invariant (dx dy deltaY : ℝ) (s : CameraState) (hs : CamInv s) :
    CamInv (orbitMove dx dy s) ∧
    CamInv (panMove dx dy s) ∧
    CamInv (handleWheelCam deltaY s) ∧
    CamInv (handleMouseDownCam s) ∧
    (s.spherical.phi = 0.05 → 0 ≤ dy → (orbitMove dx dy s).spherical.phi = 0.05) ∧
    (s.spherical.radius = 80 → 0 ≤ deltaY →
      (handleWheelCam deltaY s).spherical.radius = 80) := by
  obtain ⟨⟨r, φ, θ⟩, tgt, cam⟩ := s
  obtain ⟨h2, h80, hp1, hp2, hcons⟩ := hs
  have h2' : 2 ≤ r := h2
  have h80' : r ≤ 80 := h80
  have hp1' : 0.05 ≤ φ := hp1
  have hp2' : φ ≤ Real.pi - 0.05 := hp2
  have hcons' : cam = V3R.add tgt (setFromSpherical ⟨r, φ, θ⟩) := hcons
  have hr0 : 0 < r := lt_of_lt_of_le (by norm_num) h2'
  have h0φ : 0 ≤ φ := le_trans (by norm_num) hp1'
  have hπφ : φ ≤ Real.pi := by linarith
  have hkey : V3R.sub cam tgt = setFromSpherical ⟨r, φ, θ⟩ := by
    rw [hcons']
    exact V3R.sub_add_self _ _
  obtain ⟨hrad, hphi⟩ := setFromVector3_radius_phi r φ θ hr0 h0φ hπφ
  refine ⟨⟨h2', h80', (phi_clamp_bounds (φ - dy * 0.005)).1,
      (phi_clamp_bounds (φ - dy * 0.005)).2, rfl⟩, ?_, ?_, ?_, ?_, ?_⟩
  · -- pan preserves the invariant: the camera-target offset is unchanged
    refine ⟨?_, ?_, ?_, ?_, ?_⟩
    · simp only [panMove]
      rw [V3R.sub_add_right, hkey, hrad]
      exact h2'
    · simp only [panMove]
      rw [V3R.sub_add_right, hkey, hrad]
      exact h80'
    · simp only [panMove]
      rw [V3R.sub_add_right, hkey, hphi]
      exact hp1'
    · simp only [panMove]
      rw [V3R.sub_add_right, hkey, hphi]
      exact hp2'
    · simp only [panMove]
      rw [V3R.sub_add_right, hkey, setFromSpherical_setFromVector3, hcons']
      exact V3R.add_right_comm tgt (setFromSpherical ⟨r, φ, θ⟩) _
  · -- wheel zoom clamps the radius into [2, 80] and re-clamps phi
    refine ⟨?_, ?_, (phi_clamp_bounds φ).1, (phi_clamp_bounds φ).2, rfl⟩
    · show 2 ≤ min (max (r * (1 + signR deltaY * 0.1)) 2) 80
      exact le_min (le_max_right _ _) (by norm_num)
    · show min (max (r * (1 + signR deltaY * 0.1)) 2) 80 ≤ 80
      exact min_le_right _ _
  · -- pointer-down re-derivation preserves the spherical state
    refine ⟨?_, ?_, ?_, ?_, ?_⟩
    · show 2 ≤ (Spherical.setFromVector3 (V3R.sub cam tgt)).radius
      rw [hkey, hrad]
      exact h2'
    · show (Spherical.setFromVector3 (V3R.sub cam tgt)).radius ≤ 80
      rw [hkey, hrad]
      exact h80'
    · show 0.05 ≤ (Spherical.setFromVector3 (V3R.sub cam tgt)).phi
      rw [hkey, hphi]
      exact hp1'
    · show (Spherical.setFromVector3 (V3R.sub cam tgt)).phi ≤ Real.pi - 0.05
      rw [hkey, hphi]
      exact hp2'
    · show cam = V3R.add tgt
        (setFromSpherical (Spherical.setFromVector3 (V3R.sub cam tgt)))
      rw [setFromSpherical_setFromVector3]
      exact (V3R.add_sub_self tgt cam).symm
  · -- phi pinned at the lower clamp bound under further decreasing drags
    intro hφ hdy
    have hφ' : φ = 0.05 := hφ
    show min (max (φ - dy * 0.005) 0.05) (Real.pi - 0.05) = 0.05
    have h3 := Real.pi_gt_three
    rw [hφ', max_eq_right (by linarith), min_eq_left (by linarith)]
  · -- radius saturated at 80 under further wheel-out events
    intro h80eq hdy
    have h80eq' : r = 80 := h80eq
    show min (max (r * (1 + signR deltaY * 0.1)) 2) 80 = 80
    have hsig : 0 ≤ signR deltaY := by
      rw [signR]
      split_ifs with ha hb
      · norm_num
      · linarith
      · norm_num
    rw [h80eq']
    have hfac : (80 : ℝ) ≤ 80 * (1 + signR deltaY * 0.1) := by linarith
    rw [max_eq_left (by linarith), min_eq_right hfac]

/-- Witness for C6 at the concrete rig radius 15, `phi = π/2`, origin
target: one orbit drag preserves the invariant. -/
theorem camera_rig_invariant_witness :
    CamInv (orbitMove 1 1 ⟨⟨15, Real.pi / 2, 0⟩, ⟨0, 0, 0⟩,
      V3R.add ⟨0, 0, 0⟩ (setFromSpherical ⟨15, Real.pi / 2, 0⟩)⟩) := by
  have h3 := Real.pi_gt_three
  have hs : CamInv ⟨⟨15, Real.pi / 2, 0⟩, ⟨0, 0, 0⟩,
      V3R.add ⟨0, 0, 0⟩ (setFromSpherical ⟨15, Real.pi / 2, 0⟩)⟩ := by
    refine ⟨?_, ?_, ?_, ?_, rfl⟩
    · show (2 : ℝ) ≤ 15
      norm_num
    · show (15 : ℝ) ≤ 80
      norm_num
    · show (0.05 : ℝ) ≤ Real.pi / 2
      linarith
    · show Real.pi / 2 ≤ Real.pi - 0.05
      linarith
  exact (camera_rig_invariant 1 1 0 _ hs).1

end SpacetimeWarp
